import Mathlib

/-!
Verification of the jeriDB hybrid retrieval engine against its specification.
The embedded code lives in backend/src/routes/hybrid.js,
backend/src/utils/similarity.js, backend/src/utils/embedding.js and the two
store adapters.  Quantities the JavaScript source handles as IEEE doubles are
modelled as exact rationals (all inputs of interest are decimal literals);
the transcendental parts (sqrt, sin, pi) are modelled over the real numbers.
-/

namespace JeriDB

/-!
Score fusion: mergeResults in backend/src/routes/hybrid.js, lines 94-101.
-/

/-- Formatted vector hit, the element shape produced by VectorDB.search. -/
structure VecHit where
  rank : Nat
  docId : String
  text : String
  distance : ℚ
  similarity : ℚ
deriving DecidableEq

/-- Result hit of mergeResults: the JS spread copies every field of the vector
hit and adds the fused hybrid_score field. -/
structure ScoredHit extends VecHit where
  hybrid_score : ℚ
deriving DecidableEq

/-- Reading graphBoost[k] from the JS boost object: the first binding of k in
the association list (the builder below never creates duplicate keys). -/
def boostLookup (m : List (String × ℚ)) (k : String) : Option ℚ :=
  (m.find? (fun p => p.1 == k)).map (fun p => p.2)

/-- Object assignment obj[k] = v of the handler's forEach loop: any previous
binding of k is overwritten. -/
def jsObjSet (m : List (String × ℚ)) (k : String) (v : ℚ) : List (String × ℚ) :=
  (m.filter (fun p => ¬ (p.1 = k))) ++ [(k, v)]

/-- Scoring map inside mergeResults:
hybrid_score = similarity * vectorWeight + (graphBoost[docId] || 0).
For a number, the JS expression x || 0 is x unless x is 0 or absent, and both
of those cases yield 0, so it is Option.getD 0. -/
def scoreHits (vectorResults : List VecHit) (graphBoost : List (String × ℚ))
    (vectorWeight : ℚ) : List ScoredHit :=
  vectorResults.map (fun r =>
    ⟨r, r.similarity * vectorWeight + (boostLookup graphBoost r.docId).getD 0⟩)

/-- Comparator of the JS sort call (a, b) => b.hybrid_score - a.hybrid_score:
a may stay before b exactly when b.hybrid_score ≤ a.hybrid_score.
Array.prototype.sort is stable per ES2019, so it is a stable sort under this
ordering, modelled with the stable List.mergeSort. -/
def hybridLe (a b : ScoredHit) : Bool :=
  decide (b.hybrid_score ≤ a.hybrid_score)

/-- mergeResults from hybrid.js lines 94-101: score every vector hit, then
stable-sort descending by hybrid score. -/
def mergeResults (vectorResults : List VecHit) (graphBoost : List (String × ℚ))
    (vectorWeight : ℚ) : List ScoredHit :=
  (scoreHits vectorResults graphBoost vectorWeight).mergeSort hybridLe

theorem hybridLe_trans (a b c : ScoredHit) (h1 : hybridLe a b = true)
    (h2 : hybridLe b c = true) : hybridLe a c = true := by
  simp only [hybridLe, decide_eq_true_eq] at h1 h2 ⊢
  exact le_trans h2 h1

theorem hybridLe_total (a b : ScoredHit) : (hybridLe a b || hybridLe b a) = true := by
  simp only [hybridLe, Bool.or_eq_true, decide_eq_true_eq]
  exact le_total b.hybrid_score a.hybrid_score

theorem mergeResults_perm (v : List VecHit) (b : List (String × ℚ)) (w : ℚ) :
    (mergeResults v b w).Perm (scoreHits v b w) :=
  List.mergeSort_perm (scoreHits v b w) hybridLe

theorem mergeResults_filter_score (v : List VecHit) (b : List (String × ℚ))
    (w : ℚ) (q : ℚ) :
    (mergeResults v b w).filter (fun s => s.hybrid_score == q)
      = (scoreHits v b w).filter (fun s => s.hybrid_score == q) := by
  set p : ScoredHit → Bool := fun s => s.hybrid_score == q with hp
  set c : List ScoredHit := (scoreHits v b w).filter p with hc
  have hmemp : ∀ s ∈ c, p s = true := fun s hs => List.of_mem_filter hs
  have hpair : List.Pairwise (fun a d => hybridLe a d = true) c := by
    refine List.pairwise_of_forall_mem_list ?_
    intro a ha d hd
    have hqa : a.hybrid_score = q := by
      have := hmemp a ha
      simpa [hp, beq_iff_eq] using this
    have hqd : d.hybrid_score = q := by
      have := hmemp d hd
      simpa [hp, beq_iff_eq] using this
    simp [hybridLe, hqa, hqd]
  have hsub : c.Sublist (mergeResults v b w) :=
    List.sublist_mergeSort hybridLe_trans hybridLe_total hpair
      (List.filter_sublist (scoreHits v b w))
  have hsub2 : (c.filter p).Sublist ((mergeResults v b w).filter p) :=
    List.Sublist.filter p hsub
  have hcc : c.filter p = c := List.filter_eq_self.mpr hmemp
  rw [hcc] at hsub2
  have hperm : ((mergeResults v b w).filter p).Perm c :=
    List.Perm.filter p (mergeResults_perm v b w)
  exact (List.Sublist.eq_of_length hsub2 hperm.length_eq.symm).symm

/-- C1: mergeResults returns exactly the input hits (no graph-only entries
added, none dropped), each augmented with
hybrid score = similarity * vectorWeight + (boost for its docId, 0 when
absent), ordered descending by hybrid score, original order preserved among
equal hybrid scores (stable sort); and on the spec example
hits [x: 0.8, y: 0.6], vectorWeight 0.7, boost y: 0.3, the fused scores are
x: 0.56 and y: 0.72 and the result order is [y, x]. -/
theorem C1_mergeResults_fusion :
    (∀ (v : List VecHit) (b : List (String × ℚ)) (w : ℚ),
      (mergeResults v b w).Perm
        (v.map (fun r =>
          ⟨r, r.similarity * w + (boostLookup b r.docId).getD 0⟩)) ∧
      ((mergeResults v b w).map (fun s => s.toVecHit)).Perm v ∧
      List.Pairwise (fun a c => c.hybrid_score ≤ a.hybrid_score)
        (mergeResults v b w) ∧
      (∀ q : ℚ, (mergeResults v b w).filter (fun s => s.hybrid_score == q)
        = (scoreHits v b w).filter (fun s => s.hybrid_score == q))) ∧
    mergeResults [⟨1, "x", "", 0, 0.8⟩, ⟨2, "y", "", 0, 0.6⟩] [("y", 0.3)] 0.7
      = [⟨⟨2, "y", "", 0, 0.6⟩, 0.72⟩, ⟨⟨1, "x", "", 0, 0.8⟩, 0.56⟩] := by
  constructor
  · intro v b w
    refine ⟨mergeResults_perm v b w, ?_, ?_, mergeResults_filter_score v b w⟩
    · have h := List.Perm.map (fun s : ScoredHit => s.toVecHit)
        (mergeResults_perm v b w)
      have h2 : (scoreHits v b w).map (fun s => s.toVecHit) = v := by
        rw [scoreHits, List.map_map]
        exact List.map_id' v
      rw [h2] at h
      exact h
    · have hs := List.sorted_mergeSort hybridLe_trans hybridLe_total
        (scoreHits v b w)
      exact hs.imp (by intro a c h; simpa [hybridLe] using h)
  · show (scoreHits _ _ _).mergeSort hybridLe = _
    have hsc : scoreHits [⟨1, "x", "", 0, 0.8⟩, ⟨2, "y", "", 0, 0.6⟩]
        [("y", 0.3)] 0.7
        = [⟨⟨1, "x", "", 0, 0.8⟩, 0.56⟩, ⟨⟨2, "y", "", 0, 0.6⟩, 0.72⟩] := by
      simp [scoreHits, boostLookup, List.find?]
      norm_num
    rw [hsc]
    have hle : hybridLe ⟨⟨1, "x", "", 0, 0.8⟩, 0.56⟩ ⟨⟨2, "y", "", 0, 0.6⟩, 0.72⟩
        = false := by
      simp only [hybridLe, decide_eq_false_iff_not]
      norm_num
    simp [List.mergeSort, List.merge, hle]

/-!
Ingestion router: cleanData (hybrid.js lines 42-55), decideRoute (lines
57-66) and the POST /ingest handler (lines 176-214).
-/

/-- Whitespace for the JS regex class \s and String.prototype.trim (the ASCII
part; the payloads of interest contain no exotic Unicode spaces). -/
def jsIsSpace (c : Char) : Bool :=
  c == ' ' || c == '\t' || c == '\n' || c == '\r' || c == '\x0b' || c == '\x0c'

/-- Word character of the JS regex class \w: ASCII letters, digits, underscore. -/
def isWordChar (c : Char) : Bool := c.isAlphanum || c == '_'

/-- Characters kept by .replace applied with the class outside \w \s . , ! ?. -/
def keptChar (c : Char) : Bool :=
  isWordChar c || jsIsSpace c || c == '.' || c == ',' || c == '!' || c == '?'

/-- Collapse step of .replace applied to runs of \s: every maximal whitespace
run becomes one space.  The boolean argument records whether the previous
character was part of a whitespace run. -/
def collapseWsAux : Bool → List Char → List Char
  | _, [] => []
  | prevSpace, c :: rest =>
    if jsIsSpace c then
      if prevSpace then collapseWsAux true rest
      else ' ' :: collapseWsAux true rest
    else c :: collapseWsAux false rest

/-- Whitespace-run collapse over a whole character list. -/
def collapseWs (l : List Char) : List Char := collapseWsAux false l

/-- String.prototype.trim on a character list. -/
def jsTrimList (l : List Char) : List Char :=
  ((l.dropWhile jsIsSpace).reverse.dropWhile jsIsSpace).reverse

/-- String.prototype.trim. -/
def jsTrim (s : String) : String := (jsTrimList s.toList).asString

/-- Cleaning pipeline of cleanData: collapse whitespace runs to one space,
strip characters outside \w, \s and . , ! ?, then trim. -/
def cleanPipeline (s : String) : String :=
  (jsTrimList ((collapseWs s.toList).filter keptChar)).asString

/-- Node element of an ingest payload; the ingest loop only reads node.id. -/
structure IngestNode where
  id : Option String
deriving DecidableEq

/-- Edge element of an ingest payload; the ingest loop reads from, to, type
and weight (from and to are renamed fromId and toId, from being a Lean
keyword). -/
structure IngestEdge where
  fromId : Option String
  toId : Option String
  type : Option String
  weight : Option ℚ
deriving DecidableEq

/-- Ingest payload shape: every field the router inspects, with absent fields
as none.  Text-like fields and parent_id are strings; nodes, edges,
relationships and children are arrays. -/
structure IngestPayload where
  id : Option String := none
  text : Option String := none
  content : Option String := none
  title : Option String := none
  description : Option String := none
  nodes : Option (List IngestNode) := none
  edges : Option (List IngestEdge) := none
  relationships : Option (List String) := none
  parent_id : Option String := none
  children : Option (List String) := none
deriving DecidableEq

/-- Truthiness of an optional JS string field: present and nonempty. -/
def strTruthy (o : Option String) : Bool :=
  match o with
  | some s => !(s == "")
  | none => false

/-- Truthiness of data.f?.trim(): present with non-whitespace content. -/
def trimTruthy (o : Option String) : Bool :=
  match o with
  | some s => !(jsTrim s == "")
  | none => false

/-- Truthiness of data.f?.length for an optional array field: present and
nonempty (an empty array has length 0, which is falsy). -/
def lenTruthy {α : Type} (o : Option (List α)) : Bool :=
  match o with
  | some l => !(l.length == 0)
  | none => false

/-- Truthiness of an optional JS array value itself: any present array is
truthy, even an empty one. -/
def arrTruthy {α : Type} (o : Option (List α)) : Bool := o.isSome

/-- Value of the chain data.text || data.content || data.title ||
data.description || '' (first truthy field, raw, untrimmed). -/
def textChain (d : IngestPayload) : String :=
  if strTruthy d.text then d.text.getD ""
  else if strTruthy d.content then d.content.getD ""
  else if strTruthy d.title then d.title.getD ""
  else if strTruthy d.description then d.description.getD ""
  else ""

/-- Cleaned text cleanData computes for a payload without structural lists. -/
def cleanedText (d : IngestPayload) : String := cleanPipeline (textChain d)

/-- Noise guard of cleanData line 45: description is not consulted. -/
def guardBlank (d : IngestPayload) : Bool :=
  !trimTruthy d.text && !trimTruthy d.content && !trimTruthy d.title

/-- cleanData from hybrid.js lines 42-55; none where the JS returns null. -/
def cleanData (d : IngestPayload) : Option IngestPayload :=
  if lenTruthy d.nodes || lenTruthy d.edges then some d
  else if guardBlank d then none
  else if (cleanedText d).length < 10 then none
  else some { d with text := some (cleanedText d) }

/-- Route decision values of decideRoute. -/
inductive Route where
  | BOTH
  | VECTOR_ONLY
  | GRAPH_ONLY
  | METADATA_ONLY
deriving DecidableEq

/-- hasText of decideRoute: any of the four text-like fields truthy. -/
def hasTextFlag (d : IngestPayload) : Bool :=
  strTruthy d.text || strTruthy d.content || strTruthy d.title ||
    strTruthy d.description

/-- hasRelationships of decideRoute as the code computes it: nodes?.length and
edges?.length are truthy only for nonempty arrays, relationships and children
are truthy whenever present (JS arrays are truthy even when empty), parent_id
when a nonempty string. -/
def hasRelationshipsFlag (d : IngestPayload) : Bool :=
  lenTruthy d.nodes || lenTruthy d.edges || arrTruthy d.relationships ||
    strTruthy d.parent_id || arrTruthy d.children

/-- decideRoute from hybrid.js lines 57-66. -/
def decideRoute (d : IngestPayload) : Route :=
  if hasTextFlag d && hasRelationshipsFlag d then .BOTH
  else if hasTextFlag d then .VECTOR_ONLY
  else if hasRelationshipsFlag d then .GRAPH_ONLY
  else .METADATA_ONLY

/-- Field-presence reading of hasRelationships following the words of the
specification and of claim C2: any of the five fields present, an empty list
included. -/
def specHasRelationships (d : IngestPayload) : Bool :=
  d.nodes.isSome || d.edges.isSome || d.relationships.isSome ||
    d.parent_id.isSome || d.children.isSome

/-- External store call issued by a handler, with the arguments the engine
passes; recorded to check which stores a request contacts and with what. -/
inductive StoreOp where
  | addDocument (id : Option String) (text : Option String)
  | addNode (id : Option String)
  | addEdge (fromId : Option String) (toId : Option String)
      (type : Option String) (weight : Option ℚ)
deriving DecidableEq

/-- Response of the POST /ingest handler, stripped to what the claims need. -/
inductive IngestResponse where
  | noiseError
  | success (routedTo : Route)
deriving DecidableEq

/-- Store calls of the dispatch phase of POST /ingest (lines 187-202): the
vector add for vector-bearing routes, then one graph call per element of the
structural lists (if cleaned.nodes is truthy for any present array, so a
present empty list just iterates zero times). -/
def ingestOps (c : IngestPayload) (route : Route) : List StoreOp :=
  (if route = .VECTOR_ONLY ∨ route = .BOTH then [.addDocument c.id c.text]
   else []) ++
  (if route = .GRAPH_ONLY ∨ route = .BOTH then
    (match c.nodes with
     | some ns => ns.map (fun n => .addNode n.id)
     | none => []) ++
    (match c.edges with
     | some es => es.map (fun e => .addEdge e.fromId e.toId e.type e.weight)
     | none => [])
   else [])

/-- POST /ingest handler (hybrid.js lines 176-214): clean, classify, dispatch.
The second component lists the store calls the request issues, in order. -/
def ingest (d : IngestPayload) : IngestResponse × List StoreOp :=
  match cleanData d with
  | none => (.noiseError, [])
  | some c => (.success (decideRoute c), ingestOps c (decideRoute c))

/-- Payload whose nodes list is present but empty, all other fields absent. -/
def emptyNodesPayload : IngestPayload := { nodes := some [] }

/-- C2 as stated is false: a payload whose nodes list is present but empty has
hasRelationships in the claim's presence sense and no text, so the claim
demands GRAPH_ONLY, but decideRoute returns METADATA_ONLY because
nodes?.length is 0 and falsy. -/
theorem C2_counterexample :
    specHasRelationships emptyNodesPayload = true ∧
    hasTextFlag emptyNodesPayload = false ∧
    decideRoute emptyNodesPayload = Route.METADATA_ONLY ∧
    Route.METADATA_ONLY ≠ Route.GRAPH_ONLY := by
  refine ⟨rfl, rfl, rfl, ?_⟩
  decide

/-- C2 amended: the route decision is a total deterministic function of
hasText (some text-like field truthy) and of hasRelationships as the code
computes it: nodes or edges present and nonempty, or relationships or children
present, or parent_id a nonempty string; a present-but-empty nodes or edges
list does not count.  The four-way decision table and the spec's concrete
example hold. -/
theorem C2_decideRoute_table :
    (∀ d : IngestPayload,
      (decideRoute d = Route.BOTH ↔
        hasTextFlag d = true ∧ hasRelationshipsFlag d = true) ∧
      (decideRoute d = Route.VECTOR_ONLY ↔
        hasTextFlag d = true ∧ hasRelationshipsFlag d = false) ∧
      (decideRoute d = Route.GRAPH_ONLY ↔
        hasTextFlag d = false ∧ hasRelationshipsFlag d = true) ∧
      (decideRoute d = Route.METADATA_ONLY ↔
        hasTextFlag d = false ∧ hasRelationshipsFlag d = false)) ∧
    decideRoute { title := some "a valid longer description",
                  nodes := some [⟨some "n1"⟩] } = Route.BOTH := by
  constructor
  · intro d
    cases hT : hasTextFlag d <;> cases hR : hasRelationshipsFlag d <;>
      simp [decideRoute, hT, hR]
  · rfl

/-- Payload whose only text-like field is description. -/
def descOnlyPayload : IngestPayload :=
  { description := some "a sufficiently long description text" }

/-- C3 as stated is false at a payload whose only text-like field is
description: the guard on line 45 only consults text, content and title, so
the payload is rejected as noise instead of being cleaned from description. -/
theorem C3_counterexample :
    cleanData descOnlyPayload = none ∧
    ingest descOnlyPayload = (.noiseError, []) := by
  constructor <;> rfl

theorem cleanData_some_of_accepted (d : IngestPayload)
    (hn : lenTruthy d.nodes = false) (he : lenTruthy d.edges = false)
    (hg : guardBlank d = false) (hl : 10 ≤ (cleanedText d).length) :
    cleanData d = some { d with text := some (cleanedText d) } := by
  simp [cleanData, hn, he, hg, Nat.not_lt.mpr hl]

/-- C3 amended: for payloads with no nonempty nodes or edges list, the noise
guard looks only at text, content and title: when all three are absent or
whitespace-only the payload is rejected as noise even when description is set;
otherwise the first truthy of text, content, title, description is cleaned
(collapse whitespace runs, strip characters outside word characters,
whitespace and . , ! ?, trim); a cleaned text under 10 characters is rejected
with the noise error before any store call, and otherwise the cleaned text is
what the single vector-store write receives. -/
theorem C3_cleanData_noise :
    ∀ d : IngestPayload, lenTruthy d.nodes = false → lenTruthy d.edges = false →
      (guardBlank d = true →
        cleanData d = none ∧ ingest d = (.noiseError, [])) ∧
      (guardBlank d = false →
        ((cleanedText d).length < 10 →
          cleanData d = none ∧ ingest d = (.noiseError, [])) ∧
        (10 ≤ (cleanedText d).length →
          cleanData d = some { d with text := some (cleanedText d) } ∧
          (ingest d).2 = [.addDocument d.id (some (cleanedText d))])) := by
  intro d hn he
  constructor
  · intro hg
    have hc : cleanData d = none := by simp [cleanData, hn, he, hg]
    exact ⟨hc, by simp [ingest, hc]⟩
  · intro hg
    constructor
    · intro hl
      have hc : cleanData d = none := by simp [cleanData, hn, he, hg, hl]
      exact ⟨hc, by simp [ingest, hc]⟩
    · intro hl
      have hc := cleanData_some_of_accepted d hn he hg hl
      refine ⟨hc, ?_⟩
      set c : IngestPayload := { d with text := some (cleanedText d) } with hcdef
      have hne : cleanedText d ≠ "" := by
        intro h0
        rw [h0] at hl
        simp at hl
      have hTc : hasTextFlag c = true := by
        simp [hasTextFlag, strTruthy, hcdef, hne]
      have hnodes : (match c.nodes with
          | some ns => ns.map (fun n => StoreOp.addNode n.id)
          | none => []) = [] := by
        rcases hcn : d.nodes with _ | ns
        · simp [hcdef, hcn]
        · have : ns.length = 0 := by
            rw [hcn] at hn
            simpa [lenTruthy] using hn
          have hnil : ns = [] := List.length_eq_zero.mp this
          simp [hcdef, hcn, hnil]
      have hedges : (match c.edges with
          | some es => es.map (fun e => StoreOp.addEdge e.fromId e.toId e.type e.weight)
          | none => []) = [] := by
        rcases hce : d.edges with _ | es
        · simp [hcdef, hce]
        · have : es.length = 0 := by
            rw [hce] at he
            simpa [lenTruthy] using he
          have hnil : es = [] := List.length_eq_zero.mp this
          simp [hcdef, hce, hnil]
      have hops : ingestOps c (decideRoute c) = [.addDocument d.id (some (cleanedText d))] := by
        cases hR : hasRelationshipsFlag c <;>
          simp [ingestOps, decideRoute, hTc, hR, hnodes, hedges, hcdef]
      simp [ingest, hc, hops]

/-- Payload whose only text-like field is content, with a clean long text. -/
def contentPayload : IngestPayload :=
  { content := some "a sufficiently long description text" }

/-- Witness for the amended C3: the content-only payload passes the guard, is
cleaned from content, and the single store call carries the cleaned text. -/
theorem C3_cleanData_noise_witness :
    cleanData contentPayload
        = some { contentPayload with text := some (cleanedText contentPayload) } ∧
    (ingest contentPayload).2
        = [.addDocument contentPayload.id (some (cleanedText contentPayload))] :=
  ((C3_cleanData_noise contentPayload (by decide) (by decide)).2
    (by decide)).2 (by decide)

/-!
Hybrid search: the POST /search handler (hybrid.js lines 250-289), the
graphSearch helper (lines 68-92) and VectorDB.search (the vector store
adapter, second revision, lines 405-436 of the concatenated sources).
-/

/-- Array.prototype.slice(start, stop) for natural start and stop. -/
def jsSlice {α : Type} (l : List α) (start stop : ℕ) : List α :=
  (l.drop start).take (stop - start)

/-- Math.ceil(len / k) on natural inputs, as the handler computes total_pages. -/
def totalPages (len k : ℕ) : ℕ := Nat.ceil ((len : ℚ) / (k : ℚ))

/-- Pagination step of the POST /search handler: offset = (page - 1) * topK,
slice [offset, offset + topK) of the fused list, plus total_pages. -/
def searchPaginate {α : Type} (hits : List α) (page topK : ℕ) : List α × ℕ :=
  (jsSlice hits ((page - 1) * topK) ((page - 1) * topK + topK),
   totalPages hits.length topK)

/-- Raw row returned by the LanceDB table search; _distance may be absent. -/
structure LanceRow where
  id : String
  text : String
  distance : Option ℚ
deriving DecidableEq

/-- Formatting step of VectorDB.search: rank rows 1-based, take
similarity = 1 - (_distance || 0), then drop the internal init placeholder
row. -/
def vectorSearchFormat (rows : List LanceRow) : List VecHit :=
  (rows.enum.map (fun p =>
    ⟨p.1 + 1, p.2.id, p.2.text, (p.2.distance).getD 0,
      1 - (p.2.distance).getD 0⟩)).filter (fun h => !(h.docId == "init"))

/-- Result object of VectorDB.search: formatted hits plus totalResults. -/
structure VecSearchOut where
  results : List VecHit
  totalResults : ℕ
deriving DecidableEq

/-- VectorDB.search applied to the raw rows the store returned for the query
embedding (the store is trusted to apply the limit). -/
def vectorDBSearch (rows : List LanceRow) : VecSearchOut :=
  ⟨vectorSearchFormat rows, (vectorSearchFormat rows).length⟩

/-- Match row of the keyword graph search Cypher query. -/
structure GraphMatch where
  docId : String
  score : ℚ
deriving DecidableEq

/-- graphSearch from hybrid.js lines 68-92: the store call either yields match
rows or fails; the catch block logs the failure and returns the empty list, so
the failure never surfaces to the caller. -/
def graphSearch (store : Except String (List GraphMatch)) : List GraphMatch :=
  match store with
  | .ok ms => ms
  | .error _ => []

/-- Boost object built by the handler's forEach loop:
graphScoreBoost[docId] = score * graph_weight, later writes overwriting
earlier ones. -/
def buildBoost (ms : List GraphMatch) (gw : ℚ) : List (String × ℚ) :=
  ms.foldl (fun acc m => jsObjSet acc m.docId (m.score * gw)) []

/-- Response of POST /search, stripped to the claim-relevant fields. -/
inductive SearchResponse where
  | ok (results : List ScoredHit) (total_pages : ℕ)
  | err (msg : String)
deriving DecidableEq

/-- POST /search handler (hybrid.js lines 250-289).  The two store calls are
passed in as their outcomes: a vector search failure is rethrown and caught by
the outer catch as a 500 error, while graphSearch swallows its own failure. -/
def hybridSearchHandler (vres : Except String VecSearchOut)
    (gres : Except String (List GraphMatch)) (type : String)
    (vectorWeight graphWeight : ℚ) (topK page : ℕ) : SearchResponse :=
  match vres with
  | .error e => .err e
  | .ok v =>
    let boost := if type == "hybrid" || type == "graph"
      then buildBoost (graphSearch gres) graphWeight else []
    let hybridResults := mergeResults v.results boost vectorWeight
    let pg := searchPaginate hybridResults page topK
    .ok pg.1 pg.2

/-- C4: for every fused hit list, page ≥ 1 and topK ≥ 1, the search returns
the slice [offset, offset + topK) with offset = (page - 1) * topK, reports
total_pages as the ceiling of totalHits / topK (the least n with
totalHits ≤ topK * n), and a page beyond the end yields an empty list; the
spec's 12-hit example behaves as stated. -/
theorem C4_pagination :
    (∀ (α : Type) (hits : List α) (page topK : ℕ), 1 ≤ page → 1 ≤ topK →
      (searchPaginate hits page topK).1
          = (hits.drop ((page - 1) * topK)).take topK ∧
      (searchPaginate hits page topK).2
          = Nat.ceil ((hits.length : ℚ) / (topK : ℚ)) ∧
      hits.length ≤ topK * (searchPaginate hits page topK).2 ∧
      (∀ n : ℕ, hits.length ≤ topK * n → (searchPaginate hits page topK).2 ≤ n) ∧
      (hits.length ≤ (page - 1) * topK → (searchPaginate hits page topK).1 = [])) ∧
    ((searchPaginate (List.range' 1 12) 1 5).1 = [1, 2, 3, 4, 5] ∧
     (searchPaginate (List.range' 1 12) 3 5).1 = [11, 12] ∧
     (searchPaginate (List.range' 1 12) 1 5).2 = 3 ∧
     (searchPaginate (List.range' 1 12) 4 5).1 = []) := by
  constructor
  · intro α hits page topK hp hk
    have hk0 : (0 : ℚ) < (topK : ℚ) := by exact_mod_cast hk
    refine ⟨?_, rfl, ?_, ?_, ?_⟩
    · simp [searchPaginate, jsSlice]
    · have h := Nat.le_ceil ((hits.length : ℚ) / (topK : ℚ))
      rw [div_le_iff₀ hk0] at h
      have : (hits.length : ℚ) ≤ (topK : ℚ) * (totalPages hits.length topK : ℚ) := by
        calc (hits.length : ℚ) ≤ (totalPages hits.length topK : ℚ) * (topK : ℚ) := h
        _ = (topK : ℚ) * (totalPages hits.length topK : ℚ) := by ring
      exact_mod_cast this
    · intro n hn
      have hq : (hits.length : ℚ) / (topK : ℚ) ≤ (n : ℚ) := by
        rw [div_le_iff₀ hk0]
        calc (hits.length : ℚ) ≤ (topK : ℚ) * (n : ℚ) := by exact_mod_cast hn
        _ = (n : ℚ) * (topK : ℚ) := by ring
      exact Nat.ceil_le.mpr hq
    · intro hbeyond
      have hdrop : hits.drop ((page - 1) * topK) = [] :=
        List.drop_eq_nil_of_le hbeyond
      simp [searchPaginate, jsSlice, hdrop]
  · refine ⟨by decide, by decide, ?_, by decide⟩
    show totalPages (List.range' 1 12).length 5 = 3
    have hlen : (List.range' 1 12).length = 12 := by decide
    rw [hlen]
    rw [totalPages, Nat.ceil_eq_iff (by norm_num)]
    norm_num

/-- Witness for C4 at the spec's example: 12 fused hits, topK 5, page 3
returns items 11 and 12, and total_pages satisfies the ceiling bound. -/
theorem C4_pagination_witness :
    (searchPaginate (List.range' 1 12) 3 5).1
        = ((List.range' 1 12).drop ((3 - 1) * 5)).take 5 ∧
    (List.range' 1 12).length ≤ 5 * (searchPaginate (List.range' 1 12) 3 5).2 := by
  have h := C4_pagination.1 ℕ (List.range' 1 12) 3 5 (by decide) (by decide)
  exact ⟨h.1, h.2.2.1⟩

/-- Single vector row used in the graph-failure counterexample. -/
def oneRow : List LanceRow := [⟨"doc1", "some long text here", some 0.5⟩]

/-- C8 as stated is false: with a healthy vector store and a failing graph
store, the hybrid search completes with a 200 success response (the
graphSearch catch block swallows the failure and contributes zero boosts)
instead of returning an error. -/
theorem C8_counterexample :
    hybridSearchHandler (.ok (vectorDBSearch oneRow)) (.error "connection lost")
        "hybrid" 0.7 0.3 5 1
      = .ok [⟨⟨1, "doc1", "some long text here", 0.5, 0.5⟩, 0.35⟩] 1 := by
  have hfmt : vectorDBSearch oneRow
      = ⟨[⟨1, "doc1", "some long text here", 0.5, 0.5⟩], 1⟩ := by
    simp [vectorDBSearch, vectorSearchFormat, oneRow, List.enum]
    norm_num
  have hmerge : mergeResults [⟨1, "doc1", "some long text here", 0.5, 0.5⟩] [] 0.7
      = [⟨⟨1, "doc1", "some long text here", 0.5, 0.5⟩, 0.35⟩] := by
    simp [mergeResults, scoreHits, boostLookup, List.mergeSort]
    norm_num
  have htp : totalPages 1 5 = 1 := by
    rw [totalPages, Nat.ceil_eq_iff (by norm_num)]
    norm_num
  simp [hybridSearchHandler, graphSearch, buildBoost, hfmt, hmerge,
    searchPaginate, jsSlice, htp]

/-- C8 amended: no store call is retried, and a vector-store failure surfaces
immediately as an engine-level error response; but the graph keyword search
issued during hybrid search is the exception: its failure is caught inside
graphSearch, logged, and treated as zero graph matches, so the request
completes exactly as if the graph store had returned no rows. -/
theorem C8_store_failures :
    (∀ (e : String) (gres : Except String (List GraphMatch)) (type : String)
      (vw gw : ℚ) (topK page : ℕ),
      hybridSearchHandler (.error e) gres type vw gw topK page = .err e) ∧
    (∀ (v : VecSearchOut) (e type : String) (vw gw : ℚ) (topK page : ℕ),
      hybridSearchHandler (.ok v) (.error e) type vw gw topK page
        = hybridSearchHandler (.ok v) (.ok []) type vw gw topK page) := by
  constructor
  · intro e gres type vw gw topK page
    rfl
  · intro v e type vw gw topK page
    simp [hybridSearchHandler, graphSearch]

/-- C10: the candidate list that reaches fusion comes from the single
vector-store search with limit top_k, so when the store honors the limit the
fused list has at most top_k entries, total_pages is at most 1, and every
request with page ≥ 2 returns an empty result list. -/
theorem C10_single_search_bound :
    ∀ (rows : List LanceRow) (gres : Except String (List GraphMatch))
      (type : String) (vw gw : ℚ) (topK page : ℕ)
      (boost : List (String × ℚ)),
      rows.length ≤ topK → 1 ≤ topK → 2 ≤ page →
      (mergeResults (vectorDBSearch rows).results boost vw).length ≤ topK ∧
      totalPages (mergeResults (vectorDBSearch rows).results boost vw).length
        topK ≤ 1 ∧
      ∃ tp, hybridSearchHandler (.ok (vectorDBSearch rows)) gres type vw gw topK page
          = .ok [] tp ∧ tp ≤ 1 := by
  intro rows gres type vw gw topK page boost hrows hk hpage
  have hk0q : (0 : ℚ) < (topK : ℚ) := by exact_mod_cast hk
  have hfmtlen : ∀ b : List (String × ℚ),
      (mergeResults (vectorDBSearch rows).results b vw).length ≤ topK := by
    intro b
    have h1 : (mergeResults (vectorDBSearch rows).results b vw).length
        = (scoreHits (vectorDBSearch rows).results b vw).length :=
      (mergeResults_perm _ _ _).length_eq
    have h2 : (scoreHits (vectorDBSearch rows).results b vw).length
        = (vectorSearchFormat rows).length := by
      simp [scoreHits, vectorDBSearch]
    have h3 : (vectorSearchFormat rows).length ≤ rows.length := by
      calc (vectorSearchFormat rows).length
          ≤ (rows.enum.map (fun p =>
              (⟨p.1 + 1, p.2.id, p.2.text, (p.2.distance).getD 0,
                1 - (p.2.distance).getD 0⟩ : VecHit))).length :=
            List.length_filter_le _ _
      _ = rows.length := by simp
    omega
  have htpb : ∀ b : List (String × ℚ),
      totalPages (mergeResults (vectorDBSearch rows).results b vw).length
        topK ≤ 1 := by
    intro b
    apply Nat.ceil_le.mpr
    rw [Nat.cast_one, div_le_one hk0q]
    exact_mod_cast hfmtlen b
  refine ⟨hfmtlen boost, htpb boost, ?_⟩
  have hk0 : (0 : ℚ) < (topK : ℚ) := hk0q
  set b : List (String × ℚ) := if type == "hybrid" || type == "graph"
    then buildBoost (graphSearch gres) gw else [] with hb
  set fused : List ScoredHit := mergeResults (vectorDBSearch rows).results b vw
    with hfused
  have hlen : fused.length ≤ topK := hfmtlen b
  have hoff : fused.length ≤ (page - 1) * topK := by
    have h1 : 1 ≤ page - 1 := by omega
    calc fused.length ≤ topK := hlen
    _ = 1 * topK := (one_mul topK).symm
    _ ≤ (page - 1) * topK := Nat.mul_le_mul_right topK h1
  have hdrop : fused.drop ((page - 1) * topK) = [] :=
    List.drop_eq_nil_of_le hoff
  have htp : totalPages fused.length topK ≤ 1 := htpb b
  refine ⟨totalPages fused.length topK, ?_, htp⟩
  simp only [hybridSearchHandler, searchPaginate, jsSlice]
  rw [← hb, ← hfused, hdrop]
  simp

/-- Witness for C10: one row returned against topK 5 and page 2 gives the
empty page and a single total page. -/
theorem C10_single_search_bound_witness :
    (mergeResults (vectorDBSearch oneRow).results [] 0.7).length ≤ 5 ∧
    totalPages (mergeResults (vectorDBSearch oneRow).results [] 0.7).length 5 ≤ 1 ∧
    ∃ tp, hybridSearchHandler (.ok (vectorDBSearch oneRow)) (.ok [])
        "hybrid" 0.7 0.3 5 2 = .ok [] tp ∧ tp ≤ 1 :=
  C10_single_search_bound oneRow (.ok []) "hybrid" 0.7 0.3 5 2 []
    (by decide) (by decide) (by decide)

/-!
Similarity scorer: cosineSimilarity in backend/src/utils/similarity.js,
lines 1-27.
-/

/-- One-pass accumulation loop of cosineSimilarity: dot product, sum of
squares of a, sum of squares of b.  The recursion accumulates the same three
sums as the JS for loop (addition of exact rationals is associative and
commutative, so the direction of accumulation does not matter). -/
def cosLoop : List ℚ → List ℚ → ℚ × ℚ × ℚ
  | a :: ta, b :: tb =>
    let r := cosLoop ta tb
    (r.1 + a * b, r.2.1 + a * a, r.2.2 + b * b)
  | _, _ => (0, 0, 0)

/-- Dot product of two vectors, stopping at the shorter one. -/
def dotp : List ℚ → List ℚ → ℚ
  | a :: ta, b :: tb => a * b + dotp ta tb
  | _, _ => 0

/-- Sum of the squared components of a vector. -/
def sumsq (v : List ℚ) : ℚ := dotp v v

theorem cosLoop_eq : ∀ (a b : List ℚ), a.length = b.length →
    cosLoop a b = (dotp a b, sumsq a, sumsq b)
  | [], [], _ => rfl
  | x :: xs, [], h => by simp at h
  | [], y :: ys, h => by simp at h
  | x :: xs, y :: ys, h => by
    have hlen : xs.length = ys.length := by simpa using h
    have ih := cosLoop_eq xs ys hlen
    simp [cosLoop, dotp, sumsq, ih]
    constructor
    · ring
    · constructor <;> ring

theorem sumsq_nonneg (v : List ℚ) : 0 ≤ sumsq v := by
  induction v with
  | nil => simp [sumsq, dotp]
  | cons x xs ih =>
    have hx : 0 ≤ x * x := mul_self_nonneg x
    simpa [sumsq, dotp] using add_nonneg hx ih

/-- Outcome of cosineSimilarity on equal-length vectors: the zero-magnitude
branch, or the ratio branch carrying dot, sumsqA and sumsqB (its real value is
cosValue). -/
inductive CosOutcome where
  | zero
  | frac (dot sumsqA sumsqB : ℚ)
deriving DecidableEq

/-- cosineSimilarity from similarity.js.  The code computes
magnitudeA = Math.sqrt(sumsqA) and tests magnitudeA === 0; a sum of squares
is nonnegative, so the test is equivalent to sumsqA = 0 (theorem
magnitude_eq_zero below), which keeps the branch executable over exact
rationals. -/
def cosineSimilarity (a b : List ℚ) : Except String CosOutcome :=
  if a.length ≠ b.length then .error "Vectors must have same dimension"
  else
    let r := cosLoop a b
    if r.2.1 = 0 ∨ r.2.2 = 0 then .ok .zero
    else .ok (.frac r.1 r.2.1 r.2.2)

/-- Magnitude of a vector: the square root of its sum of squares. -/
noncomputable def magnitude (v : List ℚ) : ℝ := Real.sqrt ((sumsq v : ℚ) : ℝ)

/-- Real value denoted by a cosineSimilarity outcome. -/
noncomputable def cosValue : CosOutcome → ℝ
  | .zero => 0
  | .frac d sA sB => (d : ℝ) / (Real.sqrt (sA : ℝ) * Real.sqrt (sB : ℝ))

theorem magnitude_eq_zero (v : List ℚ) : magnitude v = 0 ↔ sumsq v = 0 := by
  rw [magnitude, Real.sqrt_eq_zero']
  constructor
  · intro h
    have h2 : (sumsq v : ℝ) ≤ 0 := h
    have h3 : sumsq v ≤ 0 := by exact_mod_cast h2
    exact le_antisymm h3 (sumsq_nonneg v)
  · intro h
    rw [h]
    simp

/-- C5: cosineSimilarity raises the dimension-mismatch error exactly when the
lengths differ; for equal-length vectors it returns 0 exactly when the
magnitude of a or of b is 0 (empty vectors included), and otherwise the ratio
dot(a, b) / (|a| * |b|). -/
theorem C5_cosineSimilarity_spec :
    ∀ a b : List ℚ,
      ((∃ e, cosineSimilarity a b = .error e) ↔ a.length ≠ b.length) ∧
      (a.length = b.length →
        (cosineSimilarity a b = .ok .zero ↔
          magnitude a = 0 ∨ magnitude b = 0) ∧
        (magnitude a ≠ 0 → magnitude b ≠ 0 →
          cosineSimilarity a b
              = .ok (.frac (dotp a b) (sumsq a) (sumsq b)) ∧
          cosValue (.frac (dotp a b) (sumsq a) (sumsq b))
              = (dotp a b : ℝ) / (magnitude a * magnitude b))) := by
  intro a b
  constructor
  · constructor
    · rintro ⟨e, he⟩
      intro hlen
      have hloop := cosLoop_eq a b hlen
      by_cases hz : sumsq a = 0 ∨ sumsq b = 0 <;>
        simp [cosineSimilarity, hlen, hloop, hz] at he
    · intro hne
      exact ⟨"Vectors must have same dimension", by simp [cosineSimilarity, hne]⟩
  · intro hlen
    have hloop := cosLoop_eq a b hlen
    constructor
    · rw [magnitude_eq_zero, magnitude_eq_zero]
      by_cases hz : sumsq a = 0 ∨ sumsq b = 0 <;>
        simp [cosineSimilarity, hlen, hloop, hz]
    · intro hma hmb
      have hza : sumsq a ≠ 0 := fun h => hma ((magnitude_eq_zero a).mpr h)
      have hzb : sumsq b ≠ 0 := fun h => hmb ((magnitude_eq_zero b).mpr h)
      constructor
      · simp [cosineSimilarity, hlen, hloop, hza, hzb]
      · rfl

/-- Witness for C5: vectors of length 2 with nonzero magnitudes take the
ratio branch with dot 24 and sums of squares 25 and 25. -/
theorem C5_cosineSimilarity_spec_witness :
    cosineSimilarity [(3 : ℚ), 4] [(4 : ℚ), 3]
        = .ok (.frac (dotp [(3 : ℚ), 4] [(4 : ℚ), 3])
            (sumsq [(3 : ℚ), 4]) (sumsq [(4 : ℚ), 3])) ∧
    cosValue (.frac (dotp [(3 : ℚ), 4] [(4 : ℚ), 3])
        (sumsq [(3 : ℚ), 4]) (sumsq [(4 : ℚ), 3]))
      = (dotp [(3 : ℚ), 4] [(4 : ℚ), 3] : ℝ)
          / (magnitude [(3 : ℚ), 4] * magnitude [(4 : ℚ), 3]) := by
  have hma : magnitude [(3 : ℚ), 4] ≠ 0 := by
    rw [Ne, magnitude_eq_zero]
    norm_num [sumsq, dotp]
  have hmb : magnitude [(4 : ℚ), 3] ≠ 0 := by
    rw [Ne, magnitude_eq_zero]
    norm_num [sumsq, dotp]
  exact (C5_cosineSimilarity_spec [(3 : ℚ), 4] [(4 : ℚ), 3]).2 rfl |>.2 hma hmb

/-!
Embedding fallback: generateMockEmbedding in backend/src/utils/embedding.js,
lines 1-17.
-/

/-- Wrap of an integer to 32-bit signed semantics, as the JS bitwise
operations apply (ToInt32 inside the shift and inside hash & hash). -/
def wrap32 (x : ℤ) : ℤ := (x + 2 ^ 31) % 2 ^ 32 - 2 ^ 31

/-- One step of the rolling polynomial hash:
hash = ((hash << 5) - hash) + charCode followed by hash = hash & hash.  The
shift operates on the already 32-bit hash, so it is wrap32 (h * 32); the
subtraction and addition are exact in a double at these magnitudes, and the
final bitwise and wraps the result back to 32-bit signed. -/
def hashStep (h : ℤ) (c : ℕ) : ℤ := wrap32 (wrap32 (h * 32) - h + c)

/-- Rolling hash of the character codes of the text, starting from 0. -/
def hashOf (codes : List ℕ) : ℤ := codes.foldl hashStep 0

/-- Truncation toward zero, the rounding of the JS remainder operator. -/
noncomputable def jsTrunc (x : ℝ) : ℤ := if 0 ≤ x then ⌊x⌋ else ⌈x⌉

/-- JS remainder x % y for y > 0: x - y * trunc(x / y), taking the sign of
the dividend. -/
noncomputable def jsRem (x y : ℝ) : ℝ := x - y * (jsTrunc (x / y) : ℝ)

/-- generateMockEmbedding from embedding.js: for each dimension i, the angle
is (hash + i * 12345) % (2 * Math.PI) and the component
Math.sin(angle) * 0.5 + 0.5. -/
noncomputable def generateMockEmbedding (codes : List ℕ) (dimensions : ℕ) :
    List ℝ :=
  (List.range dimensions).map (fun i : ℕ =>
    Real.sin (jsRem ((hashOf codes : ℝ) + (i : ℝ) * 12345) (2 * Real.pi))
      * 0.5 + 0.5)

theorem sin_jsRem (x : ℝ) :
    Real.sin (jsRem x (2 * Real.pi)) = Real.sin x := by
  rw [jsRem, mul_comm]
  exact Real.sin_periodic.sub_int_mul_eq (jsTrunc (x / (2 * Real.pi)))

/-- C6: the fallback embedding is a pure function of the text: it has exactly
dimensions components, component i equals
sin(hash + i * 12345) * 0.5 + 0.5 (the remainder by 2 pi taken by the code
does not change the sine), every component lies in [0, 1], and two calls on
the same text yield identical vectors. -/
theorem C6_mock_embedding :
    ∀ (codes : List ℕ) (dimensions : ℕ),
      (generateMockEmbedding codes dimensions).length = dimensions ∧
      generateMockEmbedding codes dimensions
        = (List.range dimensions).map (fun i : ℕ =>
            Real.sin ((hashOf codes : ℝ) + (i : ℝ) * 12345) * 0.5 + 0.5) ∧
      (∀ x ∈ generateMockEmbedding codes dimensions, 0 ≤ x ∧ x ≤ 1) ∧
      generateMockEmbedding codes dimensions
        = generateMockEmbedding codes dimensions := by
  intro codes dimensions
  refine ⟨by simp [generateMockEmbedding], ?_, ?_, rfl⟩
  · simp only [generateMockEmbedding, sin_jsRem]
  · intro x hx
    simp only [generateMockEmbedding, List.mem_map] at hx
    obtain ⟨i, _, rfl⟩ := hx
    set t : ℝ := jsRem ((hashOf codes : ℝ) + (i : ℝ) * 12345) (2 * Real.pi)
    have h1 : Real.sin t ≤ 1 := Real.sin_le_one t
    have h2 : -1 ≤ Real.sin t := Real.neg_one_le_sin t
    constructor <;> nlinarith

/-- Witness for C6 at the single-character text with code 104 and dimension
2: the first component is within [0, 1]. -/
theorem C6_mock_embedding_witness :
    0 ≤ Real.sin ((hashOf [104] : ℝ) + ((0 : ℕ) : ℝ) * 12345) * 0.5 + 0.5 ∧
    Real.sin ((hashOf [104] : ℝ) + ((0 : ℕ) : ℝ) * 12345) * 0.5 + 0.5 ≤ 1 := by
  have h := C6_mock_embedding [104] 2
  have hmem : Real.sin ((hashOf [104] : ℝ) + ((0 : ℕ) : ℝ) * 12345) * 0.5 + 0.5
      ∈ generateMockEmbedding [104] 2 := by
    rw [h.2.1]
    refine List.mem_map.mpr ⟨0, ?_, rfl⟩
    simp
  exact h.2.2.1 _ hmem

/-!
Edge schema validation: validateEdgeSchema (hybrid.js lines 21-39) and the
POST /edges handler (lines 135-146).
-/

/-- Edge creation request body; the weight is a number when present. -/
structure EdgeReq where
  source : Option String := none
  target : Option String := none
  type : Option String := none
  weight : Option ℚ := none
deriving DecidableEq

/-- Relation-type allow-list of validateEdgeSchema. -/
def validEdgeTypes : List String :=
  ["USES", "MENTIONS", "CREATED", "RELATED", "DEPLOYED"]

/-- validateEdgeSchema from hybrid.js lines 21-39: every required field must
be truthy, the type must be in the allow-list, and a truthy weight raises
when weight < 0 or weight > 1 (a weight of exactly 0 is falsy, skips the
check, and is in range anyway). -/
def validateEdgeSchema (d : EdgeReq) : Except String Unit :=
  let missing := (if strTruthy d.source then [] else ["source"]) ++
    (if strTruthy d.target then [] else ["target"]) ++
    (if strTruthy d.type then [] else ["type"])
  if missing.length ≠ 0 then .error "Missing required fields"
  else if !(validEdgeTypes.contains (d.type.getD "")) then
    .error "Invalid edge type"
  else if (match d.weight with
    | some q => decide (¬ (q = 0)) && (decide (q < 0) || decide (1 < q))
    | none => false) then .error "Edge weight must be 0-1"
  else .ok ()

/-- Response of the POST /edges handler, stripped to the claim-relevant
shape. -/
inductive EdgeResponse where
  | created (source target type : String) (weight : ℚ)
  | badRequest
  | err (msg : String)
deriving DecidableEq

/-- POST /edges handler (hybrid.js lines 135-146): validate, destructure with
weight defaulting to 1 when absent, re-check presence, then the single graph
store call; a thrown validation error reaches the catch with no store call
made. -/
def edgesHandler (d : EdgeReq) : EdgeResponse × List StoreOp :=
  match validateEdgeSchema d with
  | .error e => (.err e, [])
  | .ok _ =>
    if !strTruthy d.source || !strTruthy d.target || !strTruthy d.type then
      (.badRequest, [])
    else
      (.created (d.source.getD "") (d.target.getD "") (d.type.getD "")
          (d.weight.getD 1),
        [.addEdge d.source d.target d.type (some (d.weight.getD 1))])

/-- C7: edge validation accepts exactly when source, target and type are all
present and truthy, type is in the allow-list, and any present weight lies in
[0, 1]; on validation failure the handler issues no store call; the FRIEND
edge is rejected and the USES edge with weight 0.9 is accepted and stored. -/
theorem C7_edge_validation :
    (∀ d : EdgeReq,
      (validateEdgeSchema d = .ok () ↔
        strTruthy d.source = true ∧ strTruthy d.target = true ∧
        strTruthy d.type = true ∧ d.type.getD "" ∈ validEdgeTypes ∧
        (∀ q : ℚ, d.weight = some q → 0 ≤ q ∧ q ≤ 1)) ∧
      (validateEdgeSchema d ≠ .ok () → (edgesHandler d).2 = [])) ∧
    validateEdgeSchema ⟨some "a", some "b", some "FRIEND", none⟩
      = .error "Invalid edge type" ∧
    validateEdgeSchema ⟨some "a", some "b", some "USES", some 0.9⟩ = .ok () ∧
    (edgesHandler ⟨some "a", some "b", some "USES", some 0.9⟩).2
      = [.addEdge (some "a") (some "b") (some "USES") (some 0.9)] := by
  refine ⟨?_, ?_, ?_, ?_⟩
  · intro d
    constructor
    · by_cases hs : strTruthy d.source <;>
        by_cases ht : strTruthy d.target <;>
        by_cases hy : strTruthy d.type <;>
        simp [validateEdgeSchema, hs, ht, hy]
      by_cases hmem : d.type.getD "" ∈ validEdgeTypes <;> simp [hmem]
      rcases hw : d.weight with _ | q
      · simp
      · constructor
        · intro hnot q2 hq2
          have hqq : q = q2 := by injection hq2
          subst hqq
          simp at hnot
          by_cases hq0 : q = 0
          · subst hq0
            norm_num
          · exact hnot hq0
        · intro hall
          simp
          intro _
          exact hall q rfl
    · intro hne
      rcases hv : validateEdgeSchema d with e | u
      · simp [edgesHandler, hv]
      · cases u
        exact absurd hv hne
  · rfl
  · show validateEdgeSchema ⟨some "a", some "b", some "USES", some 0.9⟩ = .ok ()
    simp only [validateEdgeSchema, strTruthy, validEdgeTypes]
    norm_num
    intro h
    exact absurd (h (by decide) (by decide)) (by decide)
  · have hv : validateEdgeSchema ⟨some "a", some "b", some "USES", some 0.9⟩
        = .ok () := by
      simp only [validateEdgeSchema, strTruthy, validEdgeTypes]
      norm_num
      intro h
      exact absurd (h (by decide) (by decide)) (by decide)
    simp [edgesHandler, hv, strTruthy]

/-- Witness for C7: the FRIEND edge fails validation, and by the abort
property its handler issues no store call. -/
theorem C7_edge_validation_witness :
    (edgesHandler ⟨some "a", some "b", some "FRIEND", none⟩).2 = [] :=
  (C7_edge_validation.1 ⟨some "a", some "b", some "FRIEND", none⟩).2
    (by intro h; exact absurd (C7_edge_validation.2.1 ▸ h) (by simp))

/-!
Bounded multi-hop traversal: the GET /search/multi-hop handler (hybrid.js
lines 309-350) builds a Cypher query
MATCH path=(start:Node)-[r:T1|...|Tk*1..hops]-(related:Node) with
ORDER BY hop_count ASC LIMIT 20 and returns one row per matched path.
Modelled from the spec: the graph store that executes the pattern is an
external collaborator, so the variable-length Cypher pattern semantics is
embedded here following the specification's description — undirected edge
traversal along the allowed relationship types, no relationship repeated
within one path, one row per path of length 1..hops carrying its hop count,
ordered by ascending hop count and capped at 20 rows.
-/

/-- Stored graph relationship for the traversal model. -/
structure GraphEdge where
  src : String
  tgt : String
  type : String
deriving DecidableEq

/-- Extension of one partial path (current endpoint plus the indices of the
relationships already used) by one hop in either direction along an allowed,
unused relationship. -/
def pathExtend (edges : List (ℕ × GraphEdge)) (types : List String) :
    String × List ℕ → List (String × List ℕ)
  | (cur, used) =>
    edges.filterMap (fun p =>
      if p.2.type ∈ types ∧ ¬ (p.1 ∈ used) then
        if p.2.src = cur then some (p.2.tgt, p.1 :: used)
        else if p.2.tgt = cur then some (p.2.src, p.1 :: used)
        else none
      else none)

/-- Frontier after exactly k hops: all paths of length k from the start. -/
def frontier (edges : List (ℕ × GraphEdge)) (types : List String)
    (start : String) : ℕ → List (String × List ℕ)
  | 0 => [(start, [])]
  | k + 1 => (frontier edges types start k).flatMap (pathExtend edges types)

/-- Rows of the multi-hop query before the LIMIT: one (related node id,
hop count) row per path of length 1..hops, listed in ascending hop order,
which realises ORDER BY hop_count ASC. -/
def multiHopRows (edges : List GraphEdge) (types : List String)
    (start : String) (hops : ℕ) : List (String × ℕ) :=
  (List.range hops).flatMap (fun j =>
    (frontier edges.enum types start (j + 1)).map (fun p => (p.1, j + 1)))

/-- Multi-hop traversal result: the ordered rows with LIMIT 20 applied. -/
def multiHop (edges : List GraphEdge) (types : List String)
    (start : String) (hops : ℕ) : List (String × ℕ) :=
  (multiHopRows edges types start hops).take 20

/-- C9: for every graph, type list, start node and hop limit, the bounded
traversal returns at most 20 rows, every row's hop count lies in 1..hops, and
the rows are ordered by ascending hop count. -/
theorem C9_multi_hop_bounded :
    ∀ (edges : List GraphEdge) (types : List String) (start : String)
      (hops : ℕ),
      (multiHop edges types start hops).length ≤ 20 ∧
      (∀ r ∈ multiHop edges types start hops, 1 ≤ r.2 ∧ r.2 ≤ hops) ∧
      List.Pairwise (fun r s => r.2 ≤ s.2) (multiHop edges types start hops) := by
  intro edges types start hops
  refine ⟨List.length_take_le 20 _, ?_, ?_⟩
  · intro r hr
    have hrows : r ∈ multiHopRows edges types start hops :=
      List.Sublist.mem hr (List.take_sublist 20 _)
    rw [multiHopRows] at hrows
    obtain ⟨j, hj, hmem⟩ := List.mem_flatMap.mp hrows
    obtain ⟨p, _, hp⟩ := List.mem_map.mp hmem
    have hj2 : j < hops := List.mem_range.mp hj
    rw [← hp]
    omega
  · apply List.Pairwise.sublist (List.take_sublist 20 _)
    rw [multiHopRows]
    apply List.pairwise_flatMap.mpr
    constructor
    · intro j _
      apply List.pairwise_of_forall_mem_list
      intro a ha b hb
      obtain ⟨pa, _, hpa⟩ := List.mem_map.mp ha
      obtain ⟨pb, _, hpb⟩ := List.mem_map.mp hb
      rw [← hpa, ← hpb]
    · have hlt := List.pairwise_lt_range hops
      refine hlt.imp ?_
      intro j k hjk x hx y hy
      obtain ⟨px, _, hpx⟩ := List.mem_map.mp hx
      obtain ⟨py, _, hpy⟩ := List.mem_map.mp hy
      rw [← hpx, ← hpy]
      omega

/-- Two-edge chain used as the concrete traversal witness. -/
def chainEdges : List GraphEdge := [⟨"a", "b", "USES"⟩, ⟨"b", "c", "USES"⟩]

/-- Witness for C9: on the chain a-USES-b-USES-c with hops 2, the row for b
at hop 1 is returned with hop count within 1..2, and the cap holds. -/
theorem C9_multi_hop_bounded_witness :
    (multiHop chainEdges ["USES"] "a" 2).length ≤ 20 ∧
    (1 ≤ (("b", 1) : String × ℕ).2 ∧ (("b", 1) : String × ℕ).2 ≤ 2) :=
  ⟨(C9_multi_hop_bounded chainEdges ["USES"] "a" 2).1,
   (C9_multi_hop_bounded chainEdges ["USES"] "a" 2).2.1 ("b", 1) (by decide)⟩

end JeriDB
